import Mathlib

/-
Verification development for the tacho metrics library (linkerd/tacho).

The library keeps a shared registry of counters, gauges and value
distributions (stats).  Application code obtains cloneable handles from a
`Scope`; a `Reporter` produces snapshots with `peek` (read-only) and `take`
(counters copied, gauges and stats drained), and a channel-based ingestion
pipeline (`Recorder`/`Sample`/`Aggregator`) merges batched samples under a
per-poll cap.  The definitions below are a shallow embedding of the Rust
sources; each definition's doc comment names the source item it models.
Machine integers (`usize`/`u64`, 64-bit) are modelled as `Nat` with explicit
reduction modulo `2 ^ 64` exactly where the source arithmetic wraps.
-/

namespace Tacho

/-- The modulus of 64-bit machine integers (`usize` / `u64` on the 64-bit
targets this crate runs on); wrapping atomic arithmetic reduces modulo it. -/
def wordMod : Nat := 2 ^ 64

/-- `u64::MAX`, the saturation point of `HistogramWithSum::record`. -/
def u64Max : Nat := 2 ^ 64 - 1

/-- Models `type Labels = BTreeMap<&'static str, String>` (src/lib.rs line 45):
an association list kept sorted by label name in strictly increasing order,
which is exactly the ordered entry sequence a BTreeMap iterates. -/
abbrev Labels := List (String × String)

/-- `BTreeMap::insert` on the sorted entry list: place the new pair at its
ordered position, overwriting an entry with the same key. -/
def labelsInsert (k v : String) : Labels → Labels
  | [] => [(k, v)]
  | (k1, v1) :: rest =>
    if k < k1 then (k, v) :: (k1, v1) :: rest
    else if k = k1 then (k, v) :: rest
    else (k1, v1) :: labelsInsert k v rest

/-- `BTreeMap` lookup on the entry list. -/
def labelsGet (k : String) : Labels → Option String
  | [] => none
  | (k1, v1) :: rest => if k = k1 then some v1 else labelsGet k rest

/-- Models `enum Prefix { Root, Node { prefix, value } }` (src/lib.rs lines
50-57); renamed because the source name is not a legal Lean identifier here. -/
inductive Pfx where
  | root : Pfx
  | node (parent : Pfx) (value : String) : Pfx
deriving DecidableEq, Repr

/-- Models `struct Key { name, prefix, labels }` (src/lib.rs lines 79-83).
Equality is structural over all three fields, as derived in the source. -/
structure Key where
  name : String
  pfx : Pfx
  labels : Labels
deriving DecidableEq, Repr

/-- `OrderMap` lookup: the value of the entry with the given key.  Keys are
unique in every map built by the operations below, so the first match is the
only one. -/
def lookupKey {α : Type} (k : Key) : List (Key × α) → Option α
  | [] => none
  | (k1, v) :: rest => if k = k1 then some v else lookupKey k rest

/-- Models `struct HistogramWithSum { histogram, sum }` (src/lib.rs lines
248-252).  The state of the external `hdrsample::Histogram` is abstracted as
the list of values recorded into it; `sum` is the explicitly tracked sum. -/
structure HistogramWithSum where
  histogram : List Nat
  sum : Nat
deriving DecidableEq, Repr

/-- The freshly constructed cell: empty histogram, zero sum. -/
def HistogramWithSum.empty : HistogramWithSum := { histogram := [], sum := 0 }

/-- Models `HistogramWithSum::new` (src/lib.rs lines 256-263).  The external
`hdrsample::Histogram` constructors are not part of this repository; their
bounds check is modelled from the spec boundary contract: explicit bounds are
valid iff `low >= 1` and `high >= 2 * low`, and the `.expect` call turns a
constructor failure into a panic, here `Except.error`. -/
def HistogramWithSum.new (bounds : Option (Nat × Nat)) : Except String HistogramWithSum :=
  match bounds with
  | none => .ok HistogramWithSum.empty
  | some (low, high) =>
    if 1 ≤ low ∧ 2 * low ≤ high then .ok HistogramWithSum.empty
    else .error "failed to create histogram"

/-- Models `HistogramWithSum::record` (src/lib.rs lines 266-275): the value is
recorded into the histogram (a failure of the external `record` is only
logged, and the sum is updated regardless), and the running sum saturates:
`if v >= u64::MAX - self.sum { self.sum = MAX } else { self.sum += v }`. -/
def HistogramWithSum.record (h : HistogramWithSum) (v : Nat) : HistogramWithSum :=
  { histogram := h.histogram ++ [v]
    sum := if u64Max - h.sum ≤ v then u64Max else h.sum + v }

/-- `Stat::add_values` (src/lib.rs lines 312-317): record each value in order. -/
def HistogramWithSum.recordAll (h : HistogramWithSum) (vs : List Nat) : HistogramWithSum :=
  vs.foldl HistogramWithSum.record h

/-- The shared mutable state of the registry-based system: the three maps of
`struct Registry` (src/lib.rs lines 104-109), with every `Arc<AtomicUsize>`
cell represented by an index into the explicit heap `cells`, and every
`Arc<Mutex<HistogramWithSum>>` cell by an index into `hists`.  A handle holds
a cell index; heap entries are never deleted, mirroring that an `Arc` keeps a
cell alive as long as any handle still references it. -/
structure SysState where
  counters : List (Key × Nat)
  gauges : List (Key × Nat)
  stats : List (Key × Nat)
  cells : List Nat
  hists : List HistogramWithSum
deriving DecidableEq, Repr

/-- Models `Counter::incr` (src/lib.rs lines 220-224) at the cell level:
`fetch_add` on an `AtomicUsize`, which wraps modulo the word size. -/
def counterIncr (c v : Nat) : Nat := (c + v) % wordMod

/-- The cell value produced by a sequence of `Counter::incr` calls on a fresh
(zero) cell. -/
def applyIncrs (vs : List Nat) : Nat := vs.foldl counterIncr 0

/-- Models `Gauge::decr` (src/lib.rs lines 233-235) at the cell level:
`fetch_sub` on an `AtomicUsize`, i.e. wrapping subtraction modulo the word
size. -/
def gaugeDecr (c v : Nat) : Nat := (c + (wordMod - v % wordMod)) % wordMod

/-- A write through a retained gauge handle: `Gauge::set` (src/lib.rs lines
236-238) stores to the cell the handle references, whether or not any registry
map still maps a key to that cell. -/
def heapGaugeSet (st : SysState) (i v : Nat) : SysState :=
  { st with cells := st.cells.set i v }

/-- A write through a retained stat handle: `Stat::add` (src/lib.rs lines
306-310) locks the referenced cell and records into it. -/
def heapStatAdd (st : SysState) (i v : Nat) : SysState :=
  { st with hists := st.hists.set i ((st.hists.getD i HistogramWithSum.empty).record v) }

/-- A report snapshot as exposed by `Report::counters/gauges/stats`
(src/report.rs lines 89-141), with the cell values read out. -/
structure Report where
  counters : List (Key × Nat)
  gauges : List (Key × Nat)
  stats : List (Key × HistogramWithSum)
deriving DecidableEq, Repr

/-- Models `Reporter::peek` (src/report.rs lines 24-39): a read-only view of
all three maps; no state is mutated. -/
def peekSys (st : SysState) : Report :=
  { counters := st.counters.map (fun e => (e.1, st.cells.getD e.2 0))
    gauges := st.gauges.map (fun e => (e.1, st.cells.getD e.2 0))
    stats := st.stats.map (fun e => (e.1, st.hists.getD e.2 HistogramWithSum.empty)) }

/-- Models `Reporter::take` (src/report.rs lines 44-86): the counter map is
copied entry by entry and the live map is left untouched; the gauge and stat
maps are drained (`orig.drain()`): every entry moves into the snapshot and the
live maps are left empty.  Heap cells are untouched, so cells still referenced
by outstanding handles stay alive. -/
def takeSys (st : SysState) : Report × SysState :=
  let counters := st.counters.map (fun e => (e.1, st.cells.getD e.2 0))
  let gauges := st.gauges.map (fun e => (e.1, st.cells.getD e.2 0))
  let stats := st.stats.map (fun e => (e.1, st.hists.getD e.2 HistogramWithSum.empty))
  ({ counters := counters, gauges := gauges, stats := stats },
   { st with gauges := [], stats := [] })

/-- Models `struct Scope { labels, prefix }` (src/lib.rs lines 118-122); the
shared registry the source `Scope` also carries is passed explicitly as a
`SysState` to the operations below. -/
structure Scope where
  labels : Labels
  pfx : Pfx
deriving DecidableEq, Repr

/-- Models `Scope::labeled` (src/lib.rs lines 130-134): insert a label,
potentially overwriting, and return the new scope. -/
def Scope.labeled (s : Scope) (k v : String) : Scope :=
  { s with labels := labelsInsert k v s.labels }

/-- Models `Scope::prefixed` (src/lib.rs lines 137-144). -/
def Scope.prefixed (s : Scope) (value : String) : Scope :=
  { s with pfx := Pfx.node s.pfx value }

/-- The key built at the top of `Scope::counter`/`gauge`/`stat`:
`Key::new(name, self.prefix.clone(), self.labels.clone())`. -/
def Scope.keyFor (s : Scope) (name : String) : Key :=
  { name := name, pfx := s.pfx, labels := s.labels }

/-- Models `Scope::counter` (src/lib.rs lines 147-159): look the key up in the
counter map; an existing cell is shared (an `Arc` clone), otherwise a fresh
zero cell is allocated and the entry inserted (`OrderMap` insertion appends).
Returns the cell index the handle will hold. -/
def Scope.counter (s : Scope) (name : String) (st : SysState) : Nat × SysState :=
  let key := s.keyFor name
  match lookupKey key st.counters with
  | some c => (c, st)
  | none =>
    let c := st.cells.length
    (c, { st with cells := st.cells ++ [0], counters := st.counters ++ [(key, c)] })

/-- Models the `Stat` handle (src/lib.rs lines 300-304): an `Arc` to the
shared histogram cell (here its index) plus the bounds supplied at creation. -/
structure Stat where
  histo : Nat
  bounds : Option (Nat × Nat)
deriving DecidableEq, Repr

/-- Models `Scope::mk_stat` (src/lib.rs lines 204-214): if the key is present
the existing cell is shared and the registry is left unchanged (the supplied
bounds are stored only in the returned handle); otherwise a fresh cell is
built from the bounds (which may panic on invalid explicit bounds) and
inserted. -/
def Scope.mkStat (key : Key) (bounds : Option (Nat × Nat)) (st : SysState) :
    Except String (Stat × SysState) :=
  match lookupKey key st.stats with
  | some h => .ok ({ histo := h, bounds := bounds }, st)
  | none =>
    match HistogramWithSum.new bounds with
    | .error e => .error e
    | .ok cell =>
      let h := st.hists.length
      .ok ({ histo := h, bounds := bounds },
           { st with hists := st.hists ++ [cell], stats := st.stats ++ [(key, h)] })

/-- Models `CounterKey` (src/key.rs lines 38-52): a name plus a `BTreeMap` of
labels (the `Arc<InnerKey>` sharing does not affect the value semantics). -/
structure CounterKey where
  name : String
  labels : Labels
deriving DecidableEq, Repr

/-- Models `GaugeKey` (src/key.rs lines 54-68). -/
structure GaugeKey where
  name : String
  labels : Labels
deriving DecidableEq, Repr

/-- Models `StatKey` (src/key.rs lines 74-97): name, labels and the default
histogram bounds. -/
structure StatKey where
  name : String
  labels : Labels
  low : Nat
  high : Nat
deriving DecidableEq, Repr

/-- Models `StatKey::new` (src/key.rs lines 81-89): `assert!(low >= 1)` then
`assert!(high >= 2 * low)`; a failed assertion is a panic, here
`Except.error`.  The bounds are stored unchanged, never clamped. -/
def StatKey.new (name : String) (labels : Labels) (low high : Nat) :
    Except String StatKey :=
  if 1 ≤ low then
    if 2 * low ≤ high then
      .ok { name := name, labels := labels, low := low, high := high }
    else .error "assertion failed: high >= 2 * low"
  else .error "assertion failed: low >= 1"

/-- Models `Sample` (src/recorder.rs lines 73-87): the per-flush batch of
counter deltas, gauge values and stat value queues.  The hash maps are
represented as association lists; stat `VecDeque<u64>` queues as lists. -/
structure Sample where
  counters : List (CounterKey × Nat)
  gauges : List (GaugeKey × Nat)
  stats : List (StatKey × List Nat)
deriving DecidableEq, Repr

/-- The `get_mut`-or-`insert` update pattern used on the hash maps of the
aggregator report (src/aggregator.rs) and the recorder sample
(src/recorder.rs): if the key is present its value is updated in place,
otherwise the entry `(k, dflt)` is inserted. -/
def updateAssoc {κ α : Type} [DecidableEq κ] (m : List (κ × α)) (k : κ) (f : α → α)
    (dflt : α) : List (κ × α) :=
  match m with
  | [] => [(k, dflt)]
  | (k1, v) :: rest =>
    if k = k1 then (k1, f v) :: rest else (k1, v) :: updateAssoc rest k f dflt

/-- Models the aggregator-side `Report` (src/aggregator.rs lines 80-95): one
hash map per metric kind; the external `hdrsample::Histogram<u64>` state is
abstracted as the list of values recorded into it. -/
structure AggReport where
  counters : List (CounterKey × Nat)
  gauges : List (GaugeKey × Nat)
  stats : List (StatKey × List Nat)
deriving DecidableEq, Repr

/-- Models `Report::incr` (src/aggregator.rs lines 110-116): `*curr += v`
(wrapping `u64` addition) on an existing entry, otherwise insert `v`. -/
def AggReport.incr (r : AggReport) (k : CounterKey) (v : Nat) : AggReport :=
  { r with counters := updateAssoc r.counters k (fun c => (c + v) % wordMod) v }

/-- Models `Report::set` (src/aggregator.rs lines 118-124): overwrite, or
insert. -/
def AggReport.set (r : AggReport) (k : GaugeKey) (v : Nat) : AggReport :=
  { r with gauges := updateAssoc r.gauges k (fun _ => v) v }

/-- Models `Report::add` (src/aggregator.rs lines 126-147): record every value
into the existing histogram, or build a fresh auto-resizing histogram from the
key's bounds and record every value into it. -/
def AggReport.add (r : AggReport) (k : StatKey) (vs : List Nat) : AggReport :=
  { r with stats := updateAssoc r.stats k (fun h => h ++ vs) vs }

/-- The body of one loop iteration of `Aggregator::poll` (src/aggregator.rs
lines 50-65): fold one sample into the report, counters first, then gauges,
then stats. -/
def mergeSample (r : AggReport) (s : Sample) : AggReport :=
  let r1 := s.counters.foldl (fun acc e => acc.incr e.1 e.2) r
  let r2 := s.gauges.foldl (fun acc e => acc.set e.1 e.2) r1
  s.stats.foldl (fun acc e => acc.add e.1 e.2) r2

/-- The `Async` value returned by one poll of the aggregator task. -/
inductive PollResult where
  | notReady : PollResult
  | ready : PollResult
deriving DecidableEq, Repr

/-- Outcome of one `Aggregator::poll` invocation: the returned `Async` value,
whether `task::park().unpark()` was called (the task declared itself
immediately re-runnable), the updated report, the samples left in the queue,
and the number of samples merged during this invocation. -/
structure PollRes where
  result : PollResult
  selfWake : Bool
  report : AggReport
  queue : List Sample
  merged : Nat
deriving DecidableEq, Repr

/-- The `for _ in 0..self.max_batch_size` loop of `Aggregator::poll`
(src/aggregator.rs lines 46-73).  The queue holds the pending samples in
arrival order; `closed` says the producer side of the channel is dropped, so
polling an empty queue yields `Ready(None)` (stream exhausted) instead of
`NotReady`.  When the loop finishes without an early return the task unparks
itself and returns `NotReady`. -/
def pollLoop : Nat → List Sample → Bool → AggReport → PollRes
  | 0, q, _, r =>
    { result := .notReady, selfWake := true, report := r, queue := q, merged := 0 }
  | _ + 1, [], closed, r =>
    if closed then
      { result := .ready, selfWake := false, report := r, queue := [], merged := 0 }
    else
      { result := .notReady, selfWake := false, report := r, queue := [], merged := 0 }
  | fuel + 1, s :: rest, closed, r =>
    let res := pollLoop fuel rest closed (mergeSample r s)
    { res with merged := res.merged + 1 }

/-- Models `Aggregator::poll` (src/aggregator.rs lines 33-77): if the report
`BiLock` cannot be acquired the task returns `NotReady` (the lock holder will
wake it); otherwise it runs the bounded batch loop. -/
def aggregatorPoll (lockAvail : Bool) (maxBatchSize : Nat) (q : List Sample)
    (closed : Bool) (r : AggReport) : PollRes :=
  if lockAvail then pollLoop maxBatchSize q closed r
  else { result := .notReady, selfWake := false, report := r, queue := q, merged := 0 }

/-- The external histogram's `count()`: the number of recorded values. -/
def HistogramWithSum.count (h : HistogramWithSum) : Nat := h.histogram.length

/-- Modelled from the spec: `min()` of the external histogram over the
recorded values, 0 when nothing was recorded. -/
def HistogramWithSum.minVal (h : HistogramWithSum) : Nat :=
  match h.histogram with
  | [] => 0
  | v :: vs => vs.foldl Nat.min v

/-- Modelled from the spec: `max()` of the external histogram over the
recorded values, 0 when nothing was recorded. -/
def HistogramWithSum.maxVal (h : HistogramWithSum) : Nat :=
  h.histogram.foldl Nat.max 0

/-- Insert a value into a weakly sorted list of naturals. -/
def sortedInsertNat (v : Nat) : List Nat → List Nat
  | [] => [v]
  | w :: ws => if v ≤ w then v :: w :: ws else w :: sortedInsertNat v ws

/-- Insertion sort, used to present the recorded multiset in value order the
way the external histogram's iterators do. -/
def sortNat (l : List Nat) : List Nat := l.foldr sortedInsertNat []

/-- Modelled from the spec: `value_at_percentile` (`quantiles-at(p)`) of the
external histogram — a value at the given quantile (as a fraction `num/den`)
of the recorded distribution, 0 when empty.  A pure function of the recorded
multiset; only its determinism matters for the exposition contract. -/
def HistogramWithSum.valueAtQuantile (h : HistogramWithSum) (num den : Nat) : Nat :=
  (sortNat h.histogram).getD (num * h.histogram.length / den) 0

/-- Modelled from the spec: the external histogram's `iter_recorded()` — the
distinct recorded values in increasing order, each paired with its
`count_at_value`. -/
def HistogramWithSum.recordedBuckets (h : HistogramWithSum) : List (Nat × Nat) :=
  ((sortNat h.histogram).dedup).map (fun v => (v, h.histogram.count v))

/-- The `fmt::Display` of `FmtLabels` (src/prometheus.rs lines 157-173):
export-specific extra labels first, then the key's base labels, each rendered
`k="v"`, comma-space separated.  Both maps are `BTreeMap`s, so both lists are
in sorted key order. -/
def fmtLabelsStr (extra base : Labels) : String :=
  String.intercalate ", "
    ((extra ++ base).map (fun kv => kv.1 ++ "=\"" ++ kv.2 ++ "\""))

/-- A counter/gauge exposition line (src/prometheus.rs lines 15-31):
`name value` when there are no labels, otherwise `name{labels} value`. -/
def plainLine (name : String) (labels : Labels) (v : Nat) : String :=
  if labels.isEmpty then name ++ " " ++ toString v ++ "\n"
  else name ++ "\x7b" ++ fmtLabelsStr [] labels ++ "\x7d " ++ toString v ++ "\n"

/-- Models `write_stat` (src/prometheus.rs lines 120-126): always writes the
braced label clause. -/
def statLine (name : String) (extra base : Labels) (v : Nat) : String :=
  name ++ "\x7b" ++ fmtLabelsStr extra base ++ "\x7d " ++ toString v ++ "\n"

/-- The fixed quantile set of `write_quantiles` (src/prometheus.rs lines
98-103), each with its display string and its value as a fraction over
10000. -/
def quantileList : List (String × Nat) :=
  [("0.5", 5000), ("0.9", 9000), ("0.95", 9500),
   ("0.99", 9900), ("0.999", 9990), ("0.9999", 9999)]

/-- Models `write_quantiles` (src/prometheus.rs lines 90-118): one line per
fixed quantile, with a `quantile` label as the extra label. -/
def writeQuantiles (name : String) (base : Labels) (h : HistogramWithSum) : String :=
  String.join (quantileList.map (fun q =>
    statLine name (labelsInsert "quantile" q.1 []) base (h.valueAtQuantile q.2 10000)))

/-- Models `write_bucket` (src/prometheus.rs lines 76-88): a
`name_bucket{le="..."} count` line with the `le` label as the extra label. -/
def writeBucket (name : String) (base : Labels) (le : String) (count : Nat) : String :=
  statLine (name ++ "_bucket") (labelsInsert "le" le []) base count

/-- The loop of `write_buckets` (src/prometheus.rs lines 63-70): for each
recorded bucket, emit the previous cumulative count against `value - 1` (once
the accumulator is positive), then add the bucket's count.  Returns the
emitted lines and the final cumulative count. -/
def bucketLoop (name : String) (base : Labels) :
    List (Nat × Nat) → Nat → String × Nat
  | [], accum => ("", accum)
  | (v, c) :: rest, accum =>
    let line := if 0 < accum then writeBucket name base (toString (v - 1)) accum else ""
    let res := bucketLoop name base rest (accum + c)
    (line ++ res.1, res.2)

/-- Models `write_buckets` (src/prometheus.rs lines 55-74): the cumulative
bucket lines, terminated by an explicit bucket at the recorded maximum and a
`+Inf` bucket carrying the total count. -/
def writeBuckets (name : String) (base : Labels) (h : HistogramWithSum) : String :=
  let res := bucketLoop name base h.recordedBuckets 0
  res.1 ++ writeBucket name base (toString h.maxVal) res.2
    ++ writeBucket name base "+Inf" res.2

/-- The stat block of `prometheus::write` (src/prometheus.rs lines 33-50):
`_count`, `_sum`, `_min`, `_max` lines, then quantiles, then buckets. -/
def writeStatEntry (k : Key) (h : HistogramWithSum) : String :=
  statLine (k.name ++ "_count") [] k.labels h.count
    ++ statLine (k.name ++ "_sum") [] k.labels h.sum
    ++ statLine (k.name ++ "_min") [] k.labels h.minVal
    ++ statLine (k.name ++ "_max") [] k.labels h.maxVal
    ++ writeQuantiles k.name k.labels h
    ++ writeBuckets k.name k.labels h

/-- Models `prometheus::string` / `prometheus::write` (src/prometheus.rs lines
5-53): counter lines, then gauge lines, then stat blocks, each in the
snapshot's map iteration order. -/
def prometheusString (r : Report) : String :=
  String.join (r.counters.map (fun e => plainLine e.1.name e.1.labels e.2))
    ++ String.join (r.gauges.map (fun e => plainLine e.1.name e.1.labels e.2))
    ++ String.join (r.stats.map (fun e => writeStatEntry e.1 e.2))

lemma foldl_counterIncr (vs : List Nat) (a : Nat) :
    vs.foldl counterIncr (a % wordMod) = (a + vs.sum) % wordMod := by
  induction vs generalizing a with
  | nil => simp
  | cons v vs ih =>
    simp only [List.foldl_cons, List.sum_cons, counterIncr]
    rw [Nat.mod_add_mod, ih (a + v), Nat.add_assoc]

lemma applyIncrs_eq (vs : List Nat) : applyIncrs vs = vs.sum % wordMod := by
  have h := foldl_counterIncr vs 0
  simpa [applyIncrs] using h

lemma lookupKey_append_self {α : Type} (k : Key) (l : List (Key × α)) (c : α)
    (h : lookupKey k l = none) : lookupKey k (l ++ [(k, c)]) = some c := by
  induction l with
  | nil => simp [lookupKey]
  | cons e rest ih =>
    obtain ⟨k1, v⟩ := e
    simp only [lookupKey, List.cons_append] at h ⊢
    by_cases hk : k = k1
    · simp [hk] at h
    · simp only [if_neg hk] at h ⊢
      exact ih h

lemma record_sum (h : HistogramWithSum) (v : Nat) (hs : h.sum ≤ u64Max) :
    (h.record v).sum = min (h.sum + v) u64Max := by
  simp only [HistogramWithSum.record, u64Max] at hs ⊢
  split_ifs <;> omega

lemma record_sum_le (h : HistogramWithSum) (v : Nat) (hs : h.sum ≤ u64Max) :
    (h.record v).sum ≤ u64Max := by
  rw [record_sum h v hs]
  exact min_le_right _ _

lemma recordAll_sum (vs : List Nat) (h : HistogramWithSum) (hs : h.sum ≤ u64Max) :
    (h.recordAll vs).sum = min (h.sum + vs.sum) u64Max := by
  induction vs generalizing h with
  | nil =>
    simp only [HistogramWithSum.recordAll, List.foldl_nil, List.sum_nil]
    omega
  | cons v vs ih =>
    simp only [HistogramWithSum.recordAll, List.foldl_cons, List.sum_cons] at ih ⊢
    rw [ih (h.record v) (record_sum_le h v hs), record_sum h v hs]
    omega

/-- C7: `HistogramWithSum`'s running sum saturates at the maximum
representable value instead of wrapping: for every current sum `s` and
recorded value `v`, after `record v` the stored sum equals
`min (s + v) u64::MAX` computed in exact arithmetic, and for every sequence
of recorded values the stored sum is the saturated exact sum of the
sequence. -/
theorem histogram_sum_saturates (h : HistogramWithSum) (v : Nat)
    (hs : h.sum ≤ u64Max) :
    (h.record v).sum = min (h.sum + v) u64Max ∧
    ∀ vs : List Nat, (HistogramWithSum.empty.recordAll vs).sum = min vs.sum u64Max := by
  refine ⟨record_sum h v hs, fun vs => ?_⟩
  have h0 : HistogramWithSum.empty.sum ≤ u64Max := by
    simp [HistogramWithSum.empty, u64Max]
  simpa [HistogramWithSum.empty] using recordAll_sum vs HistogramWithSum.empty h0

/-- Witness for C7 at a concrete cell and value. -/
theorem histogram_sum_saturates_witness :
    (HistogramWithSum.empty.record 3).sum = min (HistogramWithSum.empty.sum + 3) u64Max ∧
    ∀ vs : List Nat, (HistogramWithSum.empty.recordAll vs).sum = min vs.sum u64Max :=
  histogram_sum_saturates HistogramWithSum.empty 3 (by decide)

/-- C4 counterexample: `Gauge::decr` is `fetch_sub`, which wraps on
underflow.  Decrementing a zero gauge by 1 leaves `2^64 - 1`, not the 0 the
claim's saturation-at-zero semantics predicts. -/
theorem gauge_decr_underflow_counterexample :
    gaugeDecr 0 1 = 2 ^ 64 - 1 ∧ gaugeDecr 0 1 ≠ 0 := by
  constructor
  · decide
  · decide

/-- C4 (amended): `Gauge::decr` subtracts with wrapping modulo the word size:
for a cell value `c` and argument `v` (both in range), the new cell value is
`c - v` when `v ≤ c` and wraps to `2^64 - (v - c)` otherwise; it does not
saturate at zero. -/
theorem gauge_decr_wraps (c v : Nat) (hc : c < wordMod) (hv : v < wordMod) :
    gaugeDecr c v = if v ≤ c then c - v else wordMod - (v - c) := by
  simp only [gaugeDecr, wordMod] at hc hv ⊢
  split_ifs <;> omega

/-- Witness for C4's amended theorem at concrete values. -/
theorem gauge_decr_wraps_witness :
    gaugeDecr 5 3 = if 3 ≤ 5 then 5 - 3 else wordMod - (3 - 5) :=
  gauge_decr_wraps 5 3 (by decide) (by decide)

/-- C5: creating a `StatKey` with explicit bounds fails fast (assertion
panic) exactly when `low < 1` or `high < 2 * low`, succeeds for all bounds
with `low >= 1` and `high >= 2 * low`, and on success stores the supplied
bounds unchanged — invalid bounds are never clamped into a usable key. -/
theorem stat_bounds_fail_fast (name : String) (labels : Labels) (low high : Nat) :
    ((StatKey.new name labels low high).isOk = true ↔ (1 ≤ low ∧ 2 * low ≤ high)) ∧
    ∀ k, StatKey.new name labels low high = .ok k →
      k.low = low ∧ k.high = high ∧ k.name = name ∧ k.labels = labels := by
  constructor
  · unfold StatKey.new
    split_ifs with h1 h2 <;> simp_all [Except.isOk, Except.toBool]
  · intro k hk
    unfold StatKey.new at hk
    split_ifs at hk
    cases hk
    simp

/-- Witness for C5 at concrete bounds. -/
theorem stat_bounds_fail_fast_witness :
    ((StatKey.new "s" [] 1 2).isOk = true ↔ (1 ≤ 1 ∧ 2 * 1 ≤ 2)) ∧
    ∀ k, StatKey.new "s" [] 1 2 = .ok k →
      k.low = 1 ∧ k.high = 2 ∧ k.name = "s" ∧ k.labels = [] :=
  stat_bounds_fail_fast "s" [] 1 2

/-- C1 (amended): counters are cumulative and never reset by `take`: a cell
written by a sequence of `incr` calls holds the argument sum reduced modulo
the word size (so exactly N whenever N < 2^64, the claim's "exactly N" holds
only up to this wrap), `peek` and `take` both report that value, and a second
`take` with no intervening writes still reports the same value. -/
theorem counter_cumulative_take (k : Key) (vs : List Nat)
    (g s : List (Key × Nat)) (hl : List HistogramWithSum) :
    lookupKey k (peekSys
        { counters := [(k, 0)], gauges := g, stats := s,
          cells := [applyIncrs vs], hists := hl }).counters
      = some (vs.sum % wordMod) ∧
    lookupKey k ((takeSys
        { counters := [(k, 0)], gauges := g, stats := s,
          cells := [applyIncrs vs], hists := hl }).1).counters
      = some (vs.sum % wordMod) ∧
    lookupKey k ((takeSys (takeSys
        { counters := [(k, 0)], gauges := g, stats := s,
          cells := [applyIncrs vs], hists := hl }).2).1).counters
      = some (vs.sum % wordMod) := by
  simp [peekSys, takeSys, lookupKey, applyIncrs_eq]

/-- C1 counterexample to the claim as stated: two `incr(2^63)` calls sum to
N = 2^64, but `take` reports the wrapped cell value 0, not N. -/
theorem counter_take_overflow_counterexample :
    lookupKey { name := "c", pfx := .root, labels := [] }
      ((takeSys
        { counters := [({ name := "c", pfx := .root, labels := [] }, 0)],
          gauges := [], stats := [],
          cells := [applyIncrs [2 ^ 63, 2 ^ 63]], hists := [] }).1).counters
      = some 0 ∧
    List.sum [2 ^ 63, 2 ^ 63] ≠ 0 := by
  constructor
  · decide
  · decide

/-- C2, evaluated at the failing input: `take` drains every gauge entry from
the live registry unconditionally — here a gauge whose handle (cell index 1)
is still held — so the entry is gone from the live map after one `take` and a
second `take` cannot report it, while the counter entry survives every `take`
even with no handle outstanding.  This contradicts the claimed
referenced-only-by-the-Registry eviction rule (and the expectations of
`test_report_take` in src/lib.rs). -/
theorem take_drains_gauges_despite_handles :
    lookupKey { name := "paint_level", pfx := .root, labels := [] }
      ((takeSys
        { counters := [({ name := "happy_accidents", pfx := .root, labels := [] }, 0)],
          gauges := [({ name := "paint_level", pfx := .root, labels := [] }, 1)],
          stats := [], cells := [3, 2], hists := [] }).1).gauges = some 2 ∧
    (takeSys
        { counters := [({ name := "happy_accidents", pfx := .root, labels := [] }, 0)],
          gauges := [({ name := "paint_level", pfx := .root, labels := [] }, 1)],
          stats := [], cells := [3, 2], hists := [] }).2.gauges = [] ∧
    lookupKey { name := "paint_level", pfx := .root, labels := [] }
      ((takeSys (takeSys
        { counters := [({ name := "happy_accidents", pfx := .root, labels := [] }, 0)],
          gauges := [({ name := "paint_level", pfx := .root, labels := [] }, 1)],
          stats := [], cells := [3, 2], hists := [] }).2).1).gauges = none ∧
    lookupKey { name := "happy_accidents", pfx := .root, labels := [] }
      ((takeSys (takeSys
        { counters := [({ name := "happy_accidents", pfx := .root, labels := [] }, 0)],
          gauges := [({ name := "paint_level", pfx := .root, labels := [] }, 1)],
          stats := [], cells := [3, 2], hists := [] }).2).1).counters = some 3 := by
  decide

/-- C10: when a stat cell already exists in the registry for a key, a later
`mk_stat` call for that key returns a handle sharing the existing cell, the
registry and every histogram cell are left exactly as they were, and the
newly supplied bounds live only in the returned handle. -/
theorem mk_stat_reuses_cell (key : Key) (st : SysState) (h : Nat)
    (bounds : Option (Nat × Nat)) (hlk : lookupKey key st.stats = some h) :
    Scope.mkStat key bounds st = .ok ({ histo := h, bounds := bounds }, st) := by
  unfold Scope.mkStat
  rw [hlk]

/-- Witness for C10: re-creating an existing stat with bounds that would be
rejected at fresh creation still just shares the existing cell untouched. -/
theorem mk_stat_reuses_cell_witness :
    Scope.mkStat { name := "s", pfx := .root, labels := [] } (some (5, 6))
        { counters := [], gauges := [],
          stats := [({ name := "s", pfx := .root, labels := [] }, 0)],
          cells := [], hists := [HistogramWithSum.empty] }
      = .ok ({ histo := 0, bounds := some (5, 6) },
        { counters := [], gauges := [],
          stats := [({ name := "s", pfx := .root, labels := [] }, 0)],
          cells := [], hists := [HistogramWithSum.empty] }) :=
  mk_stat_reuses_cell _ _ 0 _ (by decide)

lemma pollLoop_spec (fuel : Nat) :
    ∀ (q : List Sample) (closed : Bool) (r : AggReport),
      (pollLoop fuel q closed r).merged ≤ fuel ∧
      (pollLoop fuel q closed r).queue = q.drop (pollLoop fuel q closed r).merged ∧
      (pollLoop fuel q closed r).report
        = (q.take (pollLoop fuel q closed r).merged).foldl mergeSample r ∧
      ((pollLoop fuel q closed r).result = .ready →
        closed = true ∧ (pollLoop fuel q closed r).queue = []) ∧
      ((pollLoop fuel q closed r).merged = fuel →
        (pollLoop fuel q closed r).result = .notReady ∧
        (pollLoop fuel q closed r).selfWake = true) := by
  induction fuel with
  | zero =>
    intro q closed r
    simp [pollLoop]
  | succ n ih =>
    intro q closed r
    cases q with
    | nil =>
      simp only [pollLoop]
      split_ifs with hc
      · simp [hc]
      · simp
    | cons s rest =>
      obtain ⟨h1, h2, h3, h4, h5⟩ := ih rest closed (mergeSample r s)
      simp only [pollLoop]
      refine ⟨by simpa using Nat.succ_le_succ h1, by simpa using h2, ?_, ?_, ?_⟩
      · simpa using h3
      · intro hr
        exact h4 (by simpa using hr)
      · intro hm
        have hm2 : (pollLoop n rest closed (mergeSample r s)).merged = n := by
          simpa using hm
        simpa using h5 hm2

/-- C3: in a single poll invocation (with the report lock available) the
Aggregator merges at most `max_batch_size` samples, taken in order from the
front of its queue; whenever the batch cap is hit it returns `NotReady` after
unparking itself (immediately re-runnable); it returns `Ready` only when the
producer side of the queue is closed and the queue is drained; and when the
report lock is unavailable it merges nothing and is simply `NotReady`. -/
theorem aggregator_poll_batch_cap (max : Nat) (q : List Sample) (closed : Bool)
    (r : AggReport) :
    (aggregatorPoll true max q closed r).merged ≤ max ∧
    (aggregatorPoll true max q closed r).queue
      = q.drop (aggregatorPoll true max q closed r).merged ∧
    (aggregatorPoll true max q closed r).report
      = (q.take (aggregatorPoll true max q closed r).merged).foldl mergeSample r ∧
    ((aggregatorPoll true max q closed r).result = .ready →
      closed = true ∧ (aggregatorPoll true max q closed r).queue = []) ∧
    ((aggregatorPoll true max q closed r).merged = max →
      (aggregatorPoll true max q closed r).result = .notReady ∧
      (aggregatorPoll true max q closed r).selfWake = true) ∧
    aggregatorPoll false max q closed r
      = { result := .notReady, selfWake := false, report := r, queue := q,
          merged := 0 } := by
  have h := pollLoop_spec max q closed r
  simp only [aggregatorPoll, if_true]
  exact ⟨h.1, h.2.1, h.2.2.1, h.2.2.2.1, h.2.2.2.2, rfl⟩

/-- Witness for C3 at a concrete queue. -/
theorem aggregator_poll_batch_cap_witness :
    (aggregatorPoll true 1 [] true { counters := [], gauges := [], stats := [] }).merged ≤ 1 ∧
    (aggregatorPoll true 1 [] true { counters := [], gauges := [], stats := [] }).queue
      = List.drop
          (aggregatorPoll true 1 [] true { counters := [], gauges := [], stats := [] }).merged
          [] ∧
    (aggregatorPoll true 1 [] true { counters := [], gauges := [], stats := [] }).report
      = (List.take
          (aggregatorPoll true 1 [] true { counters := [], gauges := [], stats := [] }).merged
          []).foldl mergeSample { counters := [], gauges := [], stats := [] } ∧
    ((aggregatorPoll true 1 [] true { counters := [], gauges := [], stats := [] }).result
        = .ready →
      true = true ∧
      (aggregatorPoll true 1 [] true { counters := [], gauges := [], stats := [] }).queue
        = []) ∧
    ((aggregatorPoll true 1 [] true { counters := [], gauges := [], stats := [] }).merged = 1 →
      (aggregatorPoll true 1 [] true { counters := [], gauges := [], stats := [] }).result
        = .notReady ∧
      (aggregatorPoll true 1 [] true { counters := [], gauges := [], stats := [] }).selfWake
        = true) ∧
    aggregatorPoll false 1 [] true { counters := [], gauges := [], stats := [] }
      = { result := .notReady, selfWake := false,
          report := { counters := [], gauges := [], stats := [] }, queue := [],
          merged := 0 } :=
  aggregator_poll_batch_cap 1 [] true { counters := [], gauges := [], stats := [] }

/-- C8: a handle whose backing cell was evicted from the registry by `take`'s
drain remains usable: the cell is still on the heap, a subsequent `set`
through the gauge handle and `add` through the stat handle execute and update
the cell (total operations, no failure path), and at worst the write is
unobservable — no later `peek` or `take` reports any gauge or stat key. -/
theorem handle_after_gc_safe (st : SysState) (i v j w : Nat) (k : Key)
    (hi : i < st.cells.length) (hj : j < st.hists.length) :
    (heapStatAdd (heapGaugeSet (takeSys st).2 i v) j w).cells[i]? = some v ∧
    (heapStatAdd (heapGaugeSet (takeSys st).2 i v) j w).hists[j]?
      = some ((st.hists.getD j HistogramWithSum.empty).record w) ∧
    lookupKey k (peekSys (heapStatAdd (heapGaugeSet (takeSys st).2 i v) j w)).gauges
      = none ∧
    lookupKey k (peekSys (heapStatAdd (heapGaugeSet (takeSys st).2 i v) j w)).stats
      = none ∧
    lookupKey k ((takeSys (heapStatAdd (heapGaugeSet (takeSys st).2 i v) j w)).1).gauges
      = none ∧
    lookupKey k ((takeSys (heapStatAdd (heapGaugeSet (takeSys st).2 i v) j w)).1).stats
      = none := by
  refine ⟨?_, ?_, ?_, ?_, ?_, ?_⟩
  · simp [heapStatAdd, heapGaugeSet, takeSys, List.getElem?_set_self hi]
  · simp [heapStatAdd, heapGaugeSet, takeSys, List.getElem?_set_self hj]
  · simp [heapStatAdd, heapGaugeSet, takeSys, peekSys, lookupKey]
  · simp [heapStatAdd, heapGaugeSet, takeSys, peekSys, lookupKey]
  · simp [heapStatAdd, heapGaugeSet, takeSys, lookupKey]
  · simp [heapStatAdd, heapGaugeSet, takeSys, lookupKey]

/-- Witness for C8 at a concrete one-gauge, one-stat state. -/
theorem handle_after_gc_safe_witness :
    (heapStatAdd (heapGaugeSet (takeSys
        { counters := [], gauges := [({ name := "g", pfx := .root, labels := [] }, 0)],
          stats := [({ name := "s", pfx := .root, labels := [] }, 0)],
          cells := [7], hists := [HistogramWithSum.empty] }).2 0 5) 0 2).cells[0]?
      = some 5 ∧
    (heapStatAdd (heapGaugeSet (takeSys
        { counters := [], gauges := [({ name := "g", pfx := .root, labels := [] }, 0)],
          stats := [({ name := "s", pfx := .root, labels := [] }, 0)],
          cells := [7], hists := [HistogramWithSum.empty] }).2 0 5) 0 2).hists[0]?
      = some ((List.getD [HistogramWithSum.empty] 0 HistogramWithSum.empty).record 2) ∧
    lookupKey { name := "g", pfx := .root, labels := [] }
      (peekSys (heapStatAdd (heapGaugeSet (takeSys
        { counters := [], gauges := [({ name := "g", pfx := .root, labels := [] }, 0)],
          stats := [({ name := "s", pfx := .root, labels := [] }, 0)],
          cells := [7], hists := [HistogramWithSum.empty] }).2 0 5) 0 2)).gauges = none ∧
    lookupKey { name := "g", pfx := .root, labels := [] }
      (peekSys (heapStatAdd (heapGaugeSet (takeSys
        { counters := [], gauges := [({ name := "g", pfx := .root, labels := [] }, 0)],
          stats := [({ name := "s", pfx := .root, labels := [] }, 0)],
          cells := [7], hists := [HistogramWithSum.empty] }).2 0 5) 0 2)).stats = none ∧
    lookupKey { name := "g", pfx := .root, labels := [] }
      ((takeSys (heapStatAdd (heapGaugeSet (takeSys
        { counters := [], gauges := [({ name := "g", pfx := .root, labels := [] }, 0)],
          stats := [({ name := "s", pfx := .root, labels := [] }, 0)],
          cells := [7], hists := [HistogramWithSum.empty] }).2 0 5) 0 2)).1).gauges = none ∧
    lookupKey { name := "g", pfx := .root, labels := [] }
      ((takeSys (heapStatAdd (heapGaugeSet (takeSys
        { counters := [], gauges := [({ name := "g", pfx := .root, labels := [] }, 0)],
          stats := [({ name := "s", pfx := .root, labels := [] }, 0)],
          cells := [7], hists := [HistogramWithSum.empty] }).2 0 5) 0 2)).1).stats = none :=
  handle_after_gc_safe
    { counters := [], gauges := [({ name := "g", pfx := .root, labels := [] }, 0)],
      stats := [({ name := "s", pfx := .root, labels := [] }, 0)],
      cells := [7], hists := [HistogramWithSum.empty] }
    0 5 0 2 { name := "g", pfx := .root, labels := [] } (by decide) (by decide)

lemma labelsInsert_comm (k1 k2 v1 v2 : String) (hne : k1 ≠ k2) :
    ∀ m : Labels, labelsInsert k1 v1 (labelsInsert k2 v2 m)
      = labelsInsert k2 v2 (labelsInsert k1 v1 m) := by
  intro m
  induction m with
  | nil =>
    rcases lt_trichotomy k1 k2 with h | h | h
    · simp [labelsInsert, h, lt_asymm h, hne, Ne.symm hne]
    · exact absurd h hne
    · simp [labelsInsert, h, lt_asymm h, hne, Ne.symm hne]
  | cons p rest ih =>
    obtain ⟨k0, v0⟩ := p
    rcases lt_trichotomy k1 k0 with h10 | h10 | h10
    · rcases lt_trichotomy k2 k0 with h20 | h20 | h20
      · rcases lt_trichotomy k1 k2 with h12 | h12 | h12
        · simp [labelsInsert, h10, h20, h12, lt_asymm h12, hne, Ne.symm hne]
        · exact absurd h12 hne
        · simp [labelsInsert, h10, h20, h12, lt_asymm h12, hne, Ne.symm hne]
      · subst h20
        simp [labelsInsert, h10, lt_asymm h10, hne, Ne.symm hne]
      · simp [labelsInsert, h10, lt_asymm h20, h20.ne', lt_asymm (h10.trans h20),
          (h10.trans h20).ne', hne, Ne.symm hne]
    · subst h10
      rcases lt_trichotomy k2 k1 with h20 | h20 | h20
      · simp [labelsInsert, h20, lt_asymm h20, hne, Ne.symm hne]
      · exact absurd h20.symm hne
      · simp [labelsInsert, lt_asymm h20, h20.ne', hne, Ne.symm hne]
    · rcases lt_trichotomy k2 k0 with h20 | h20 | h20
      · simp [labelsInsert, h20, lt_asymm h10, h10.ne', lt_asymm (h20.trans h10),
          (h20.trans h10).ne, hne, Ne.symm hne]
      · subst h20
        simp [labelsInsert, lt_asymm h10, h10.ne', hne, Ne.symm hne]
      · simp [labelsInsert, lt_asymm h10, h10.ne', lt_asymm h20, h20.ne', ih]

lemma foldl_labelsInsert_perm (p1 p2 : List (String × String)) (hperm : p1.Perm p2)
    (hnodup : (p1.map Prod.fst).Nodup) (init : Labels) :
    p1.foldl (fun m kv => labelsInsert kv.1 kv.2 m) init
      = p2.foldl (fun m kv => labelsInsert kv.1 kv.2 m) init := by
  refine hperm.foldl_eq' ?_ init
  intro x hx y hy z
  by_cases hxy : x = y
  · subst hxy
    rfl
  · have hne : x.1 ≠ y.1 := fun h => hxy (List.inj_on_of_nodup_map hnodup hx hy h)
    exact labelsInsert_comm y.1 x.1 y.2 x.2 (Ne.symm hne) z

lemma foldl_labeled_split (p : List (String × String)) (s0 : Scope) :
    p.foldl (fun s kv => s.labeled kv.1 kv.2) s0
      = { labels := p.foldl (fun m kv => labelsInsert kv.1 kv.2 m) s0.labels,
          pfx := s0.pfx } := by
  induction p generalizing s0 with
  | nil => rfl
  | cons kv p ih =>
    simp only [List.foldl_cons]
    rw [ih]
    rfl

lemma counter_registered (s : Scope) (name : String) (st : SysState) :
    lookupKey (s.keyFor name) ((s.counter name st).2).counters
      = some ((s.counter name st).1) := by
  cases h : lookupKey (s.keyFor name) st.counters with
  | some c => simp [Scope.counter, h]
  | none => simp [Scope.counter, h, lookupKey_append_self _ _ _ h]

lemma counter_of_lookup_some (s : Scope) (name : String) (st : SysState) (c : Nat)
    (h : lookupKey (s.keyFor name) st.counters = some c) :
    s.counter name st = (c, st) := by
  simp [Scope.counter, h]

/-- C6: two scopes built by inserting the same set of label pairs (distinct
label names) in any two orders carry equal label maps, hence build equal keys
for the same metric name; consequently a metric created through the second
scope resolves to the cell already registered through the first — the same
single registry entry, with the registry left unchanged. -/
theorem label_order_same_key (p1 p2 : List (String × String)) (hperm : p1.Perm p2)
    (hnodup : (p1.map Prod.fst).Nodup) (s0 : Scope) (name : String) (st : SysState) :
    (p1.foldl (fun s kv => s.labeled kv.1 kv.2) s0).keyFor name
      = (p2.foldl (fun s kv => s.labeled kv.1 kv.2) s0).keyFor name ∧
    (p2.foldl (fun s kv => s.labeled kv.1 kv.2) s0).counter name
        ((p1.foldl (fun s kv => s.labeled kv.1 kv.2) s0).counter name st).2
      = (((p1.foldl (fun s kv => s.labeled kv.1 kv.2) s0).counter name st).1,
         ((p1.foldl (fun s kv => s.labeled kv.1 kv.2) s0).counter name st).2) := by
  have hkey : (p1.foldl (fun s kv => s.labeled kv.1 kv.2) s0).keyFor name
      = (p2.foldl (fun s kv => s.labeled kv.1 kv.2) s0).keyFor name := by
    rw [foldl_labeled_split, foldl_labeled_split]
    simp [Scope.keyFor, foldl_labelsInsert_perm p1 p2 hperm hnodup]
  refine ⟨hkey, counter_of_lookup_some _ name _ _ ?_⟩
  rw [← hkey]
  exact counter_registered (p1.foldl (fun s kv => s.labeled kv.1 kv.2) s0) name st

/-- Witness for C6: the two-label scope built in either insertion order. -/
theorem label_order_same_key_witness :
    ([(("a" : String), ("1" : String)), ("b", "2")].foldl
        (fun (s : Scope) kv => s.labeled kv.1 kv.2)
        ({ labels := [], pfx := .root } : Scope)).keyFor "m"
      = ([(("b" : String), ("2" : String)), ("a", "1")].foldl
        (fun (s : Scope) kv => s.labeled kv.1 kv.2)
        ({ labels := [], pfx := .root } : Scope)).keyFor "m" ∧
    ([(("b" : String), ("2" : String)), ("a", "1")].foldl
        (fun (s : Scope) kv => s.labeled kv.1 kv.2)
        ({ labels := [], pfx := .root } : Scope)).counter "m"
        (([(("a" : String), ("1" : String)), ("b", "2")].foldl
          (fun (s : Scope) kv => s.labeled kv.1 kv.2)
          ({ labels := [], pfx := .root } : Scope)).counter "m"
          ({ counters := [], gauges := [], stats := [], cells := [], hists := [] }
            : SysState)).2
      = ((([(("a" : String), ("1" : String)), ("b", "2")].foldl
          (fun (s : Scope) kv => s.labeled kv.1 kv.2)
          ({ labels := [], pfx := .root } : Scope)).counter "m"
          ({ counters := [], gauges := [], stats := [], cells := [], hists := [] }
            : SysState)).1,
         (([(("a" : String), ("1" : String)), ("b", "2")].foldl
          (fun (s : Scope) kv => s.labeled kv.1 kv.2)
          ({ labels := [], pfx := .root } : Scope)).counter "m"
          ({ counters := [], gauges := [], stats := [], cells := [], hists := [] }
            : SysState)).2) :=
  label_order_same_key [("a", "1"), ("b", "2")] [("b", "2"), ("a", "1")]
    (by decide) (by decide) { labels := [], pfx := .root } "m"
    { counters := [], gauges := [], stats := [], cells := [], hists := [] }

/-- C9: the exposition writer is a pure function of the snapshot — formatting
the same snapshot twice is byte-identical — and its label ordering is
deterministic: reports whose key labels were built by inserting the same
label pairs (distinct names) in different orders format to byte-identical
output. -/
theorem exposition_deterministic (r : Report) (name : String) (v : Nat)
    (p1 p2 : List (String × String)) (hperm : p1.Perm p2)
    (hnodup : (p1.map Prod.fst).Nodup) :
    prometheusString r = prometheusString r ∧
    prometheusString
        { counters :=
            [({ name := name, pfx := .root,
                labels := p1.foldl (fun m kv => labelsInsert kv.1 kv.2 m) [] }, v)],
          gauges := [], stats := [] }
      = prometheusString
        { counters :=
            [({ name := name, pfx := .root,
                labels := p2.foldl (fun m kv => labelsInsert kv.1 kv.2 m) [] }, v)],
          gauges := [], stats := [] } := by
  refine ⟨rfl, ?_⟩
  rw [foldl_labelsInsert_perm p1 p2 hperm hnodup]

/-- Witness for C9 at a concrete report and label set. -/
theorem exposition_deterministic_witness :
    prometheusString { counters := [], gauges := [], stats := [] }
      = prometheusString { counters := [], gauges := [], stats := [] } ∧
    prometheusString
        { counters :=
            [({ name := "m", pfx := .root,
                labels := [(("a" : String), ("1" : String)), ("b", "2")].foldl
                  (fun (m : Labels) kv => labelsInsert kv.1 kv.2 m) ([] : Labels) }, 4)],
          gauges := [], stats := [] }
      = prometheusString
        { counters :=
            [({ name := "m", pfx := .root,
                labels := [(("b" : String), ("2" : String)), ("a", "1")].foldl
                  (fun (m : Labels) kv => labelsInsert kv.1 kv.2 m) ([] : Labels) }, 4)],
          gauges := [], stats := [] } :=
  exposition_deterministic { counters := [], gauges := [], stats := [] } "m" 4
    [("a", "1"), ("b", "2")] [("b", "2"), ("a", "1")] (by decide) (by decide)

end Tacho
